import Mathlib

/-!
Verification development for the `private_attribute` module
(`src/private_attribute.py`): a metaclass (`PrivateAttrType`) that hides a
declared set of attribute names behind obfuscated storage keys and a
call-stack provenance check.

The Python source is shallowly embedded as executable Lean functions:

* SHA-256 digests are modelled by abstract string-valued hash parameters
  (`h1`, `h2`) where the cache layout depends on them, and by the names
  themselves (an injective stand-in) where the source only uses digests to
  test membership of a name in a declared-private list.
* Python dicts become association lists that preserve insertion order.
* `id(obj)` becomes an abstract `Nat` identity.
* Frames (`inspect.currentframe().f_back`) become explicit `Frame` records
  carrying exactly the fields the source reads: `co_name == "<module>"`,
  the code-object identity, `co_qualname`, the `self`/`cls` local
  bindings, and the defining module.
* Raised `AttributeError`s become `Except` errors carrying the structured
  message, rendered by `AErr.msg` with the exact f-string texts of the
  source.
* Values stored in the private stores are plain data (a type parameter
  `V`); the source's bookkeeping that additionally registers
  `result.__code__` of returned/stored values into the trusted-code set,
  and the promotion performed inside `is_class_frame`, mutate state that
  only influences later, separate accesses, so the access functions below
  return the store state they change and elide the trusted-code-set
  growth (it is modelled separately in `is_class_frame` itself).
-/

/-! ### Decimal representation of naturals

`_generate_private_attr_cache` disambiguates colliding candidate keys by
appending `"_{i}"` with `i` a decimal counter (source lines 40-44).  To
reason about that loop we need that `Nat.repr` (the meaning of `f"{i}"`)
is injective, which we prove below via the evaluation map `decVal`.  -/

def digitVal (c : Char) : Nat := c.toNat - '0'.toNat

def decVal (l : List Char) : Nat := l.foldl (fun a c => 10 * a + digitVal c) 0

/-! ### KeyDeriver: `_generate_private_attr_cache` (source lines 30-60)

The decorator keeps one process-wide dict `_cache` mapping
`(obj_id, sha256(f"{obj_id}_{attr_name}"), sha256(attr_name))` to the
issued storage key.  On a cache miss it runs the wrapped generator and,
while the candidate is already among `_cache.values()`, appends `"_{i}"`
for `i = 1, 2, ...`.  `clear_function(obj_id)` deletes every entry whose
first key component equals `obj_id`.

Embedding: the two SHA-256 digests are the parameters `h1` (of
`f"{obj_id}_{attr_name}"`) and `h2` (of `attr_name`); the wrapped
generator (`_generate_private_attr_name` or a user `private_func`) is the
parameter `f`.  The dict is an insertion-ordered association list; the
threading lock is elided (single-threaded model).  -/

namespace KeyCache

abbrev CKey := Nat × String × String

abbrev Cache := List (CKey × String)

/-- `_cache.values()` in insertion order. -/
def values (c : Cache) : List String := c.map (·.2)

/-- dict key lookup. -/
def lookupK (c : Cache) (k : CKey) : Option String :=
  (c.find? (fun e => e.1 = k)).map (·.2)

/-- The cache key `(obj_id, hash_obj.hexdigest(), attr_hash_obj.hexdigest())`
(source line 38). -/
def ckey (h1 : Nat → String → String) (h2 : String → String)
    (objId : Nat) (name : String) : CKey :=
  (objId, h1 objId name, h2 name)

/-- The `i`-th candidate tried by the disambiguation loop: the original
generator output for `i = 0`, and `original_result + f"_{i}"` afterwards
(source lines 40-44). -/
def candidate (orig : String) : Nat → String
  | 0 => orig
  | n + 1 => orig ++ "_" ++ Nat.repr (n + 1)

/-- The `while result in _cache.values()` loop (source lines 42-44): the
first candidate not currently among the issued values.  Searching
`vals.length + 1` indices always suffices (`freshKey_not_mem` below shows
the fallback branch is unreachable), so this equals the source loop's
result.  -/
def freshKey (vals : List String) (orig : String) : String :=
  match (List.range (vals.length + 1)).find? (fun i => !(vals.contains (candidate orig i))) with
  | some i => candidate orig i
  | none => candidate orig (vals.length + 1)

/-- The memoised wrapper produced by `_generate_private_attr_cache("generate")`
(source lines 32-46): on a hit return the cached key and leave the cache
unchanged; on a miss generate, disambiguate, store, return. -/
def deriveKey (h1 : Nat → String → String) (h2 : String → String)
    (f : Nat → String → String) (c : Cache) (objId : Nat) (name : String) :
    Cache × String :=
  let k := ckey h1 h2 objId name
  match lookupK c k with
  | some v => (c, v)
  | none =>
    let v := freshKey (values c) (f objId name)
    (c ++ [(k, v)], v)

/-- `clear_function` (source lines 50-55): drop every cache entry whose
owner component equals `objId`. -/
def clearOwner (c : Cache) (objId : Nat) : Cache :=
  c.filter (fun e => e.1.1 ≠ objId)

/-- Cache well-formedness: no two entries share a dict key (automatic for a
Python dict) and no two entries share an issued value (the invariant the
disambiguation loop maintains). -/
def WFCache (c : Cache) : Prop := (c.map (·.1)).Nodup ∧ (values c).Nodup

/-- Injective stand-ins for the two SHA-256 digests, used by concrete
scenarios: collision-free on the inputs that actually occur. -/
def h1inj : Nat → String → String := fun o n => Nat.repr o ++ "_" ++ n

def h2inj : String → String := fun n => n

/-- Totally colliding stand-ins for the two SHA-256 digests: every input
hashes to `"H"`. -/
def h1col : Nat → String → String := fun _ _ => "H"

def h2col : String → String := fun _ => "H"

/-- A candidate generator whose outputs collide on every input (the kind of
collision the `while` loop is designed to disambiguate). -/
def fK : Nat → String → String := fun _ _ => "K"

end KeyCache

/-! ### Instance-level interception: the closures installed by
`PrivateAttrType.__new__` (source lines 187-451)

Every type `T` created through the metaclass gets fresh closures
`__getattribute__`, `__getattr__`, `__setattr__`, `__delattr__`, `__del__`
over: `hash_private_list` (the hashed names declared on `T`),
`history_private_attrs` (the hashed names declared on `T`'s
`PrivateAttrType` bases), `obj_attr_dict` (the per-type instance store),
`type_allowed_code` / `_type_attr_dict` (global per-type registries),
`head_frame` (the qualified-name prefixes) and `type_module`.

Embedding notes:

* Membership of `cls._hash_private_attribute(attr)` in a hashed list is
  modelled as membership of the plain name in a `List String`
  (an injective reading of SHA-256 on attribute names, which is what the
  source relies on throughout).
* A class and all the `PrivateAttrType` entries of its `__mro__[1:]` form
  a `List Cls` ("chain"); single inheritance is assumed, so the direct
  bases of the head are `[rest.head]`.
* The five closure functions share their code objects across all types
  (CPython compiles the nested `def`s once), so the tuple test at source
  lines 198-204 is membership in the fixed list `interceptorCodes`.
* When one closure calls another class's hook directly (history
  delegation, mro fallthrough), the callee observes a caller frame whose
  code is one of the interceptor code objects and whose local `self` is
  the instance; that frame is `interFrame`.
-/

namespace PrivAttr

/-- The caller's stack frame, restricted to the fields the source reads. -/
structure Frame where
  /-- `frame.f_code.co_name == "<module>"` (source lines 190-191). -/
  isModuleLevel : Bool
  /-- Identity of `frame.f_code`. -/
  code : Nat
  /-- `frame.f_code.co_qualname`. -/
  qualname : String
  /-- `frame.f_locals.get("self")` is bound and is an instance of the
  owning type (the combined test of source lines 208 and 254). -/
  selfIsInst : Bool
  /-- `frame.f_locals.get("cls")` is bound, is a class, and is a subclass
  of the owning type (source lines 501 and 543). -/
  clsIsSub : Bool
  /-- Identity of `inspect.getmodule(frame)`. -/
  module : Nat
deriving DecidableEq

/-- One `PrivateAttrType` class, with the state its closures consult. -/
structure Cls (V : Type) where
  /-- `type_instance.__name__`. -/
  name : String
  /-- `id(type_instance)`. -/
  tid : Nat
  /-- The logical names in this type's own `__private_attrs__` declaration
  (source: `hash_private_list`). -/
  privs : List String
  /-- The logical names declared private on the direct
  `PrivateAttrType` bases (source: `history_private_attrs`). -/
  hists : List String
  /-- `_type_allowed_code[id(type_instance)]` as a list of code ids. -/
  allowed : List Nat
  /-- `_type_allowed_frame_head[id(type_instance)]`. -/
  heads : List String
  /-- Identity of `inspect.getmodule(type_instance)`. -/
  module : Nat
  /-- The closure's `obj_attr_dict`: instance id to (storage key to value). -/
  objStore : List (Nat × List (String × V))
  /-- `_type_attr_dict.get(id(type_instance))`: storage key to value;
  `none` when the entry has been deleted by `__del__`. -/
  typeStore : Option (List (String × V))
  /-- The type's ordinary class namespace (used by the metaclass-level
  `type.__setattr__` / `type.__delattr__` fallbacks). -/
  cns : List (String × V)

/-- Association-list lookup (Python dict read). -/
def alookup {V : Type} (l : List (String × V)) (k : String) : Option V :=
  (l.find? (fun e => e.1 = k)).map (·.2)

/-- Association-list write (Python dict write: update in place or append). -/
def aset {V : Type} (l : List (String × V)) (k : String) (v : V) : List (String × V) :=
  match l with
  | [] => [(k, v)]
  | (k', v') :: t => if k' = k then (k, v) :: t else (k', v') :: aset t k v

/-- Association-list delete; `none` models a `KeyError`. -/
def adel {V : Type} (l : List (String × V)) (k : String) : Option (List (String × V)) :=
  match l with
  | [] => none
  | (k', v') :: t =>
    if k' = k then some t
    else (adel t k).map (fun t' => (k', v') :: t')

def nlookup {V : Type} (l : List (Nat × List (String × V))) (k : Nat) :
    Option (List (String × V)) :=
  (l.find? (fun e => e.1 = k)).map (·.2)

/-- `obj_attr_dict[id(self)]`, defaulting to the empty dict that
`obj_attr_dict[id(self)] = {}` would have just created. -/
def objFor {V : Type} (c : Cls V) (iid : Nat) : List (String × V) :=
  (nlookup c.objStore iid).getD []

/-- `if id(self) not in obj_attr_dict: obj_attr_dict[id(self)] = {}`
(source lines 247-248, 332-333, 384-385). -/
def ensureObj {V : Type} (c : Cls V) (iid : Nat) : Cls V :=
  match nlookup c.objStore iid with
  | some _ => c
  | none => { c with objStore := c.objStore ++ [(iid, [])] }

/-- `obj_attr_dict[id(self)][key] = value` on the (already ensured) entry. -/
def writeObj {V : Type} (c : Cls V) (iid : Nat) (k : String) (v : V) : Cls V :=
  { c with objStore := c.objStore.map (fun e => if e.1 = iid then (e.1, aset e.2 k v) else e) }

/-- `del obj_attr_dict[id(self)][key]`; `none` models the `KeyError`. -/
def delObj {V : Type} (c : Cls V) (iid : Nat) (k : String) : Option (Cls V) :=
  (adel (objFor c iid) k).map (fun d =>
    { c with objStore := c.objStore.map (fun e => if e.1 = iid then (e.1, d) else e) })

/-- `full_name.startswith(head_frame)` with `head_frame` a tuple. -/
def startsWithAny (s : String) (hs : List String) : Bool :=
  hs.any (fun h => s.startsWith h)

/-- The code objects of the five closures defined inside
`PrivateAttrType.__new__`; CPython compiles them once, so every type's
closures share them (the tuple at source lines 198-204). -/
def interceptorCodes : List Nat := [90, 91, 92, 93, 94]

/-- `code_list` (source lines 192-195): this type's allowed codes plus
those of its direct `PrivateAttrType` bases; with the single-inheritance
chain model, the direct base is the head of the tail. -/
def basesAllowed {V : Type} (rest : List (Cls V)) : List Nat :=
  match rest with
  | [] => []
  | b :: _ => b.allowed

/-- `is_class_frame` (source lines 187-214).  Returns the trust verdict
and the possibly promoted class state (source line 212 appends the
caller's code to `type_allowed_code`). -/
def is_class_frame {V : Type} (c : Cls V) (baseAllowed : List Nat)
    (fr : Option Frame) : Bool × Cls V :=
  match fr with
  | none => (false, c)
  | some f =>
    if f.isModuleLevel then (false, c)
    else if (c.allowed ++ baseAllowed).contains f.code then (true, c)
    else if interceptorCodes.contains f.code then (true, c)
    else if startsWithAny f.qualname c.heads && f.selfIsInst then
      if f.module ≠ c.module then (false, c)
      else (true, { c with allowed := c.allowed ++ [f.code] })
    else (false, c)

/-- The trust verdict of `is_class_frame` alone. -/
def isClassFrameB {V : Type} (c : Cls V) (baseAllowed : List Nat)
    (fr : Option Frame) : Bool :=
  (is_class_frame c baseAllowed fr).1

/-- `caller_self is not None and isinstance(caller_self, type_instance)`
(source lines 254, 290, 338, ...); with no caller frame the source would
crash reading `f_locals`, which no modelled scenario does. -/
def callerSelfOK (fr : Option Frame) : Bool :=
  match fr with
  | none => false
  | some f => f.selfIsInst

/-- The frame a closure observes when another closure of the same
machinery calls it directly: interceptor code, `self` bound to the
instance. -/
def interFrame : Frame :=
  { isModuleLevel := false, code := 91, qualname := "", selfIsInst := true,
    clsIsSub := false, module := 0 }

/-- The `AttributeError`s the interceptors raise, by message template. -/
inductive AErr
  /-- `f"'{T}' object has no attribute '{attr}'"`. -/
  | noAttr (tname attr : String)
  /-- `f"cannot set private attribute '{attr}' to '{T}' object"`. -/
  | cannotSet (attr tname : String)
  /-- `f"cannot delete private attribute '{attr}' on '{T}' object"`. -/
  | cannotDel (attr tname : String)
  /-- `f"'{C}' class has no attribute '{attr}'"` (metaclass level). -/
  | noAttrCls (cname attr : String)
  /-- `f"cannot set '{attr}' attribute on class '{C}'"` (hook-name guard). -/
  | hookSet (attr cname : String)
  /-- `f"cannot delete '{attr}' attribute on class '{C}'"` (hook-name guard). -/
  | hookDel (attr cname : String)
  /-- `f"cannot set private attribute '{attr}' to class '{C}'"`. -/
  | cannotSetCls (attr cname : String)
  /-- `f"cannot delete private attribute '{attr}' on class '{C}'"`. -/
  | cannotDelCls (attr cname : String)
  /-- `type.__delattr__` on an absent class attribute. -/
  | clsAbsent (cname attr : String)
  /-- A raw `KeyError` escaping (dead registry entry). -/
  | keyError
deriving DecidableEq

/-- The rendered exception message (the f-strings of the source,
grouped right-associatively). -/
def AErr.msg : AErr → String
  | .noAttr t a => "'" ++ (t ++ ("' object has no attribute '" ++ (a ++ "'")))
  | .cannotSet a t => "cannot set private attribute '" ++ (a ++ ("' to '" ++ (t ++ "' object")))
  | .cannotDel a t => "cannot delete private attribute '" ++ (a ++ ("' on '" ++ (t ++ "' object")))
  | .noAttrCls c a => "'" ++ (c ++ ("' class has no attribute '" ++ (a ++ "'")))
  | .hookSet a c => "cannot set '" ++ (a ++ ("' attribute on class '" ++ (c ++ "'")))
  | .hookDel a c => "cannot delete '" ++ (a ++ ("' attribute on class '" ++ (c ++ "'")))
  | .cannotSetCls a c => "cannot set private attribute '" ++ (a ++ ("' to class '" ++ (c ++ "'")))
  | .cannotDelCls a c => "cannot delete private attribute '" ++ (a ++ ("' on class '" ++ (c ++ "'")))
  | .clsAbsent c a => "type object '" ++ (c ++ ("' has no attribute '" ++ (a ++ "'")))
  | .keyError => "KeyError"

/-- The installed `__getattribute__` (source lines 216-237) together with
its mro fallthrough, ending at `object.__getattribute__`, which is the
ordinary namespace lookup `ns` and raises with the *instance's* class
name `sname`.  A declared or inherited private name always raises
(source lines 217-221), which is what routes private reads into
`__getattr__`. -/
def instGetattribute {V : Type} (sname : String) (ns : List (String × V)) :
    List (Cls V) → String → Except AErr V
  | [], attr =>
    match alookup ns attr with
    | some v => .ok v
    | none => .error (.noAttr sname attr)
  | c :: rest, attr =>
    if attr ∈ c.privs ∨ attr ∈ c.hists then .error (.noAttr c.name attr)
    else instGetattribute sname ns rest attr

mutual

/-- The installed `__getattr__` (source lines 239-321) for the class at
the head of `chain`, reading attribute `attr` of instance `iid` on behalf
of caller frame `fr`.  The deriver `nc` is the memoised `need_call`
(a pure function of its arguments by `deriveKey_idempotent`). -/
def instGetattr {V : Type} (nc : Nat → String → String) (chain : List (Cls V))
    (iid : Nat) (fr : Option Frame) (attr : String) : Except AErr V :=
  match chain with
  | [] => .error (.noAttr "" attr)
  | c :: rest =>
    if attr ∈ c.privs then
      -- source lines 246-284 (the `obj_attr_dict` ensure has no effect on
      -- the returned value: `objFor` already defaults to the empty dict)
      if ¬ isClassFrameB c (basesAllowed rest) fr then .error (.noAttr c.name attr)
      else if callerSelfOK fr then
        match alookup (objFor c iid) (nc iid attr) with
        | some v => .ok v
        | none =>
          -- lines 258-280: retry under the type-scoped key, then the type store
          match alookup (objFor c iid) (nc c.tid attr) with
          | some v => .ok v
          | none =>
            match c.typeStore with
            | none => .error (.noAttr c.name attr)
            | some ts =>
              match alookup ts (nc c.tid attr) with
              | some v => .ok v
              | none => .error (.noAttr c.name attr)
      else .error (.noAttr c.name attr)
    else if attr ∈ c.hists then
      -- source lines 285-303
      if ¬ isClassFrameB c (basesAllowed rest) fr then .error (.noAttr c.name attr)
      else if callerSelfOK fr then tryTailGet nc rest iid attr c.name
      else
        -- line 290 has no `else`: control falls through to line 304
        match rest with
        | [] => .error (.noAttr c.name attr)
        | b :: bs => instGetattr nc (b :: bs) iid (some interFrame) attr
    else
      -- source lines 304-319 (no user `__getattr__` in the modelled classes)
      match rest with
      | [] => .error (.noAttr c.name attr)
      | b :: bs => instGetattr nc (b :: bs) iid (some interFrame) attr

/-- The `for all_subtype in mro[1:]` loop of the history branch (source
lines 291-301): try each base's `__getattr__`, swallowing
`AttributeError`, and raise under the delegating class's name when all
fail. -/
def tryTailGet {V : Type} (nc : Nat → String → String) (l : List (Cls V))
    (iid : Nat) (attr : String) (cname : String) : Except AErr V :=
  match l with
  | [] => .error (.noAttr cname attr)
  | b :: bs =>
    match instGetattr nc (b :: bs) iid (some interFrame) attr with
    | .ok v => .ok v
    | .error _ => tryTailGet nc bs iid attr cname

end

/-- The full instance attribute read: Python runs `__getattribute__` and,
when it raises `AttributeError`, falls back to `__getattr__` with the
original caller's frame. -/
def readAttr {V : Type} (nc : Nat → String → String) (chain : List (Cls V))
    (sname : String) (ns : List (String × V)) (iid : Nat) (fr : Option Frame)
    (attr : String) : Except AErr V :=
  match instGetattribute sname ns chain attr with
  | .ok v => .ok v
  | .error _ => instGetattr nc chain iid fr attr

/-- The installed `__setattr__` (source lines 324-374).  Returns the
operation result, the updated chain, and the updated ordinary instance
namespace (written by the terminal `object.__setattr__`). -/
def instSetattr {V : Type} (nc : Nat → String → String) (chain : List (Cls V))
    (iid : Nat) (fr : Option Frame) (attr : String) (v : V)
    (ns : List (String × V)) : Except AErr Unit × List (Cls V) × List (String × V) :=
  match chain with
  | [] => (.ok (), [], aset ns attr v)
  | c :: rest =>
    if attr ∈ c.privs then
      -- source lines 331-344
      let c1 := ensureObj c iid
      if ¬ isClassFrameB c1 (basesAllowed rest) fr then
        (.error (.cannotSet attr c1.name), c1 :: rest, ns)
      else if callerSelfOK fr then
        (.ok (), writeObj c1 iid (nc iid attr) v :: rest, ns)
      else (.error (.cannotSet attr c1.name), c1 :: rest, ns)
    else if attr ∈ c.hists then
      -- source lines 345-358: delegate to the first `PrivateAttrType`
      -- base's own `__setattr__` (errors propagate; no base means the
      -- loop finds nothing and the write is silently dropped)
      if ¬ isClassFrameB c (basesAllowed rest) fr then
        (.error (.cannotSet attr c.name), c :: rest, ns)
      else if callerSelfOK fr then
        match rest with
        | [] => (.ok (), c :: rest, ns)
        | b :: bs =>
          let r := instSetattr nc (b :: bs) iid (some interFrame) attr v ns
          (r.1, c :: r.2.1, r.2.2)
      else (.error (.cannotSet attr c.name), c :: rest, ns)
    else
      -- source lines 359-365: ordinary write via the mro
      let r := instSetattr nc rest iid (some interFrame) attr v ns
      (r.1, c :: r.2.1, r.2.2)

mutual

/-- The installed `__delattr__` (source lines 376-432).  `sname` is the
instance's class name (used by the terminal `object.__delattr__`). -/
def instDelattr {V : Type} (nc : Nat → String → String) (chain : List (Cls V))
    (iid : Nat) (fr : Option Frame) (attr : String) (sname : String)
    (ns : List (String × V)) : Except AErr Unit × List (Cls V) × List (String × V) :=
  match chain with
  | [] =>
    match adel ns attr with
    | some ns' => (.ok (), [], ns')
    | none => (.error (.noAttr sname attr), [], ns)
  | c :: rest =>
    if attr ∈ c.privs then
      -- source lines 383-403
      let c1 := ensureObj c iid
      if ¬ isClassFrameB c1 (basesAllowed rest) fr then
        (.error (.cannotDel attr c1.name), c1 :: rest, ns)
      else if callerSelfOK fr then
        match delObj c1 iid (nc iid attr) with
        | some c2 => (.ok (), c2 :: rest, ns)
        | none => (.error (.noAttr c1.name attr), c1 :: rest, ns)
      else (.error (.cannotDel attr c1.name), c1 :: rest, ns)
    else if attr ∈ c.hists then
      -- source lines 404-422: like the getter, the delegation loop
      -- swallows `AttributeError` and continues; exhausting it silently
      -- succeeds (the loop simply ends)
      if ¬ isClassFrameB c (basesAllowed rest) fr then
        (.error (.cannotDel attr c.name), c :: rest, ns)
      else if callerSelfOK fr then
        let r := tryTailDel nc rest iid attr ns
        (.ok (), c :: r, ns)
      else (.error (.cannotDel attr c.name), c :: rest, ns)
    else
      -- source lines 423-429: ordinary delete via the mro
      let r := instDelattr nc rest iid (some interFrame) attr sname ns
      (r.1, c :: r.2.1, r.2.2)

/-- The `for all_subtype in mro[1:]` loop of the delete history branch
(source lines 410-417): first successful delegation wins; failures are
swallowed.  State changes made by a *failed* deeper delegation are not
threaded (they are limited to creating empty store entries). -/
def tryTailDel {V : Type} (nc : Nat → String → String) (l : List (Cls V))
    (iid : Nat) (attr : String) (ns : List (String × V)) : List (Cls V) :=
  match l with
  | [] => []
  | b :: bs =>
    match instDelattr nc (b :: bs) iid (some interFrame) attr "" ns with
    | (.ok _, ch, _) => ch
    | (.error _, ch, _) =>
      match ch with
      | [] => b :: bs
      | b' :: _ => b' :: tryTailDel nc bs iid attr ns

end

/-! ### Metaclass-level interception: `PrivateAttrType.__setattr__` /
`__delattr__` and `_is_class_code` (source lines 491-507, 583-692)

These are ordinary methods of the metaclass (one shared code object), not
per-type closures.  When `PrivateAttrType.__setattr__` recursively calls
itself for an inherited private name (source line 624), the inner call
sees a caller frame whose code is the metaclass method itself and whose
`cls` local is the outer class — that frame is `metaFrame` below. -/

/-- The fixed list of hook names that can never be (re)assigned or deleted
through the class attribute interface (source lines 584-593 and 639-648). -/
def hookNames : List String :=
  ["__class__", "__delattr__", "__getattribute__", "__getattr__",
   "__setattr__", "__getstate__", "__setstate__", "__del__"]

/-- `caller_cls is not None and issubclass(caller_cls, cls)`. -/
def callerClsOK (fr : Option Frame) : Bool :=
  match fr with
  | none => false
  | some f => f.clsIsSub

/-- Code ids of `PrivateAttrType.__setattr__` / `__delattr__` themselves
(distinct from the per-type closure codes and, by default, absent from
every type's `_type_allowed_code`). -/
def metaSetattrCode : Nat := 95

def metaDelattrCode : Nat := 96

/-- The frame observed by a recursive `PrivateAttrType.__setattr__` call. -/
def metaFrame : Frame :=
  { isModuleLevel := false, code := metaSetattrCode,
    qualname := "PrivateAttrType.__setattr__", selfIsInst := false,
    clsIsSub := true, module := 0 }

/-- The frame observed by a recursive `PrivateAttrType.__delattr__` call. -/
def metaDelFrame : Frame :=
  { isModuleLevel := false, code := metaDelattrCode,
    qualname := "PrivateAttrType.__delattr__", selfIsInst := false,
    clsIsSub := true, module := 0 }

/-- `PrivateAttrType._is_class_code` (source lines 491-507): like
`is_class_frame` but keyed on `cls` locals, without the interceptor-code
tuple, without base-code merging, and without promotion. -/
def is_class_code {V : Type} (c : Cls V) (fr : Option Frame) : Bool :=
  match fr with
  | none => false
  | some f =>
    if f.isModuleLevel then false
    else if c.allowed.contains f.code then true
    else if startsWithAny f.qualname c.heads && f.clsIsSub then
      f.module = c.module
    else false

mutual

/-- `PrivateAttrType.__setattr__` (source lines 583-636) for the class at
the head of `chain`. -/
def metaSetattr {V : Type} (nc : Nat → String → String) (chain : List (Cls V))
    (fr : Option Frame) (attr : String) (v : V) : Except AErr Unit × List (Cls V) :=
  match chain with
  | [] => (.ok (), [])
  | c :: rest =>
    -- source lines 584-595: the hook-name guard precedes everything else
    if attr ∈ hookNames then (.error (.hookSet attr c.name), c :: rest)
    else if attr ∈ c.privs then
      -- source lines 602-616
      if ¬ is_class_code c fr then (.error (.cannotSetCls attr c.name), c :: rest)
      else if callerClsOK fr then
        match c.typeStore with
        | some ts => (.ok (), { c with typeStore := some (aset ts (nc c.tid attr) v) } :: rest)
        | none => (.error .keyError, c :: rest)
      else (.error (.cannotSetCls attr c.name), c :: rest)
    else if is_class_code c fr && callerClsOK fr then
      -- source lines 617-627: delegate to the base that declared `attr`,
      -- else (`for`-`else`) perform the ordinary `type.__setattr__`
      match metaSetScan nc rest attr v with
      | some r => (r.1, c :: r.2)
      | none => (.ok (), { c with cns := aset c.cns attr v } :: rest)
    else
      -- no matching branch: the source falls off the end and returns None
      (.ok (), c :: rest)

/-- The `for icls in cls.__mro__[1:]` walk of source lines 618-625:
delegate to the first base whose private set contains `attr`; `none`
means the `for`-`else` runs. -/
def metaSetScan {V : Type} (nc : Nat → String → String) (l : List (Cls V))
    (attr : String) (v : V) : Option (Except AErr Unit × List (Cls V)) :=
  match l with
  | [] => none
  | b :: bs =>
    if attr ∈ b.privs then some (metaSetattr nc (b :: bs) (some metaFrame) attr v)
    else
      match metaSetScan nc bs attr v with
      | some r => some (r.1, b :: r.2)
      | none => none

end

mutual

/-- `PrivateAttrType.__delattr__` (source lines 638-692). -/
def metaDelattr {V : Type} (nc : Nat → String → String) (chain : List (Cls V))
    (fr : Option Frame) (attr : String) : Except AErr Unit × List (Cls V) :=
  match chain with
  | [] => (.ok (), [])
  | c :: rest =>
    -- source lines 639-650: the hook-name guard precedes everything else
    if attr ∈ hookNames then (.error (.hookDel attr c.name), c :: rest)
    else if attr ∈ c.privs then
      -- source lines 657-676
      if ¬ is_class_code c fr then (.error (.cannotDelCls attr c.name), c :: rest)
      else if callerClsOK fr then
        match c.typeStore with
        | some ts =>
          match adel ts (nc c.tid attr) with
          | some ts' => (.ok (), { c with typeStore := some ts' } :: rest)
          | none => (.error (.noAttrCls c.name attr), c :: rest)
        | none => (.error .keyError, c :: rest)
      else (.error (.cannotDelCls attr c.name), c :: rest)
    else if is_class_code c fr && callerClsOK fr then
      -- source lines 677-687
      match metaDelScan nc rest attr with
      | some r => (r.1, c :: r.2)
      | none =>
        match adel c.cns attr with
        | some d => (.ok (), { c with cns := d } :: rest)
        | none => (.error (.clsAbsent c.name attr), c :: rest)
    else
      -- source lines 688-689: ordinary `type.__delattr__`
      match adel c.cns attr with
      | some d => (.ok (), { c with cns := d } :: rest)
      | none => (.error (.clsAbsent c.name attr), c :: rest)

/-- The `for icls in cls.__mro__[1:]` walk of source lines 678-685. -/
def metaDelScan {V : Type} (nc : Nat → String → String) (l : List (Cls V))
    (attr : String) : Option (Except AErr Unit × List (Cls V)) :=
  match l with
  | [] => none
  | b :: bs =>
    if attr ∈ b.privs then
      some (metaDelattr nc (b :: bs) (some metaDelFrame) attr)
    else
      match metaDelScan nc bs attr with
      | some r => some (r.1, b :: r.2)
      | none => none

end

end PrivAttr

/-! ### Type creation: the validation sequence of `PrivateAttrType.__new__`
(source lines 119-166 and 474-488)

Elements of the declared `__private_attrs__` tuple are modelled by
`PVal`: strings, or a non-string stand-in (`intv`).  The check at source
lines 125-127 (`not isinstance(private_attr_list, Sequence) or isinstance
(..., (str, bytes))`) is vacuous — `private_attr_list` is always the
`list(...)` built on line 124 — and is therefore not modelled.

The hashing loop at lines 134-135 calls `i.encode("utf-8")` on every
element *before* the per-element `isinstance(i, str)` check at lines
159-160; for a non-string element it therefore raises
`AttributeError: 'int' object has no attribute 'encode'` first, making
the intended `TypeError` unreachable. -/

namespace TypeNew

/-- An element of the declared `__private_attrs__` value. -/
inductive PVal
  | str (s : String)
  | intv (n : Int)
deriving DecidableEq

/-- The errors `PrivateAttrType.__new__` can raise. -/
inductive PErr
  | typeErr (msg : String)
  | attrErr (msg : String)
deriving DecidableEq

/-- `cls._hash_private_attribute(i)` (source lines 134-135): succeeds on a
string (digests modelled by the name itself), raises `AttributeError` on
anything without `.encode`. -/
def hashElem : PVal → Except PErr String
  | .str s => .ok s
  | .intv _ => .error (.attrErr "'int' object has no attribute 'encode'")

def hashList : List PVal → Except PErr (List String)
  | [] => .ok []
  | p :: t => do
    let h ← hashElem p
    let r ← hashList t
    .ok (h :: r)

/-- The reserved names of source lines 138-152. -/
def invalidNames : List String :=
  ["__private_attrs__", "__name__", "__module__", "__class__", "__dict__",
   "__slots__", "__weakref__", "__getattribute__", "__getattr__",
   "__setattr__", "__delattr__", "__del__", "__mro__"]

/-- The inputs of one type creation that the validation sequence reads. -/
structure TypeDecl where
  name : String
  /-- The class-body namespace entries relevant to the transfer step. -/
  attrs : List (String × PVal)
  /-- `attrs.get("__private_attrs__")`: `none` models a missing key. -/
  privDecl : Option (List PVal)
  /-- `attrs.get("__slots__", ())`. -/
  slots : List String
  /-- Identity of the defining module. -/
  module : Nat

/-- The per-element loop of source lines 158-166: the (unreachable for
non-`.encode` elements) string check, the slots check, and the transfer of
colliding class-body values into the private store. -/
def elemLoop (d : TypeDecl) : List PVal → Except PErr (List (String × PVal))
  | [] => .ok []
  | .intv _ :: _ =>
    .error (.typeErr "'__private_attrs__' should only contain string elements, not 'int'")
  | .str s :: t =>
    if s ∈ d.slots then
      .error (.typeErr "'__private_attrs__' cannot contain the attribute name in '__slots__'")
    else
      match d.attrs.find? (fun e => e.1 = s) with
      | some e => (elemLoop d t).map (fun r => e :: r)
      | none => elemLoop d t

/-- The validation sequence of `PrivateAttrType.__new__`: missing
declaration (lines 122-123), element hashing (134-135), reserved names
(153-155), element loop (158-166), duplicate type name in the same module
(486-488).  `reg` is `_all_type` as a list of `(name, module)` pairs.
Returns the declared names and the transferred initial values. -/
def pnew (reg : List (String × Nat)) (d : TypeDecl) :
    Except PErr (List String × List (String × PVal)) :=
  match d.privDecl with
  | none => .error (.typeErr "'__private_attrs__' is required in PrivateAttrType")
  | some l =>
    match hashList l with
    | .error e => .error e
    | .ok names =>
      match invalidNames.find? (fun i => (PVal.str i) ∈ l) with
      | some i =>
        .error (.typeErr ("'__private_attrs__' cannot contain the invalid attribute name '"
          ++ (i ++ "'")))
      | none =>
        match elemLoop d l with
        | .error e => .error e
        | .ok transferred =>
          if (d.name, d.module) ∈ reg then
            .error (.typeErr ("Cannot create '" ++ (d.name ++ "' class in the same module twice")))
          else .ok (names, transferred)

end TypeNew

/-! ### Serialization refusal (source lines 453-462 and 709-713)

`PrivateAttrType.__new__` installs `__getstate__` / `__setstate__` hooks
that unconditionally raise `TypeError` — unless the class body supplied
its own (source lines 459-462).  The metaclass itself carries the same
pair for class objects. -/

namespace Pickle

/-- Which `__getstate__` / `__setstate__` a created type ends up with. -/
inductive StateHook
  /-- The hook installed by the metaclass for type `tname`. -/
  | installed (tname : String)
  /-- A class-body-supplied hook (opaque tag). -/
  | user (tag : Nat)
deriving DecidableEq

/-- Source lines 459-462: install the raising hook only when the class
body has none. -/
def chooseHook (userHook : Option Nat) (tname : String) : StateHook :=
  match userHook with
  | some u => .user u
  | none => .installed tname

/-- Invoking the chosen `__getstate__` (source lines 453-454): the
installed hook always raises. -/
def runGetstate (h : StateHook) : Except TypeNew.PErr Nat :=
  match h with
  | .installed t => .error (.typeErr ("Cannot pickle '" ++ (t ++ "' objects")))
  | .user tag => .ok tag

/-- Invoking the chosen `__setstate__` (source lines 456-457). -/
def runSetstate (h : StateHook) (_state : Nat) : Except TypeNew.PErr Unit :=
  match h with
  | .installed t => .error (.typeErr ("Cannot unpickle '" ++ (t ++ "' objects")))
  | .user _ => .ok ()

/-- `PrivateAttrType.__getstate__` (source lines 709-710). -/
def metaGetstate : Except TypeNew.PErr Nat :=
  .error (.typeErr "Cannot pickle PrivateAttrType classes")

/-- `PrivateAttrType.__setstate__` (source lines 712-713). -/
def metaSetstate (_state : Nat) : Except TypeNew.PErr Unit :=
  .error (.typeErr "Cannot unpickle PrivateAttrType classes")

end Pickle

/-! ### Concrete scenario data

A small single-inheritance hierarchy used by counterexamples and
witnesses: `clsC` declares the private name `"p"` and trusts code object
`7`; `clsBase` is its `PrivateAttrType` base with no declarations;
`clsSub` is a subclass of `clsC` that inherits `"p"` and trusts code
object `8`.  `ncX` is an injective stand-in for the cached storage-key
deriver. -/

namespace Scenario

open PrivAttr

def ncX : Nat → String → String := fun o n => Nat.repr o ++ "." ++ n

/-- An external, untrusted caller frame. -/
def frU : Frame :=
  { isModuleLevel := false, code := 50, qualname := "main", selfIsInst := false,
    clsIsSub := false, module := 7 }

/-- A frame of a method of `clsC` (code `7`), with `self` bound. -/
def frT : Frame :=
  { isModuleLevel := false, code := 7, qualname := "C.m", selfIsInst := true,
    clsIsSub := false, module := 7 }

/-- A frame running trusted code `7` with no `self` local (e.g. a
staticmethod of the class). -/
def frNoSelf : Frame :=
  { isModuleLevel := false, code := 7, qualname := "C.sm", selfIsInst := false,
    clsIsSub := false, module := 7 }

/-- A frame of a method of `clsSub` (code `8`), with `self` bound. -/
def frSub : Frame :=
  { isModuleLevel := false, code := 8, qualname := "Sub.m", selfIsInst := true,
    clsIsSub := false, module := 7 }

def clsC : Cls Int :=
  { name := "C", tid := 100, privs := ["p"], hists := [], allowed := [7],
    heads := [], module := 7, objStore := [], typeStore := some [], cns := [] }

def clsBase : Cls Int :=
  { name := "Base", tid := 101, privs := [], hists := [], allowed := [],
    heads := [], module := 7, objStore := [], typeStore := some [], cns := [] }

def clsSub : Cls Int :=
  { name := "Sub", tid := 102, privs := [], hists := ["p"], allowed := [8],
    heads := [], module := 7, objStore := [], typeStore := some [], cns := [] }

/-- `clsC` with instance `1` holding the value `5` under the
instance-scoped storage key `ncX 1 "p" = "1.p"`. -/
def clsCStored : Cls Int :=
  { name := "C", tid := 100, privs := ["p"], hists := [], allowed := [7],
    heads := [], module := 7, objStore := [(1, [("1.p", (5 : Int))])],
    typeStore := some [], cns := [] }

end Scenario

/-! ## Theorems -/

/-! ### Decimal-representation lemmas -/

theorem decVal_nil : decVal [] = 0 := rfl

theorem decVal_cons (c : Char) (t : List Char) :
    decVal (c :: t) = t.foldl (fun a c => 10 * a + digitVal c) (digitVal c) := by
  simp only [decVal, List.foldl_cons, Nat.mul_zero, Nat.zero_add]

theorem decVal_aux (l : List Char) (a : Nat) :
    l.foldl (fun a c => 10 * a + digitVal c) a =
      a * 10 ^ l.length + decVal l := by
  induction l generalizing a with
  | nil => simp only [List.foldl_nil, List.length_nil, pow_zero, decVal_nil]; omega
  | cons c t ih =>
    rw [List.foldl_cons, ih, decVal_cons, ih, List.length_cons]
    ring

theorem decVal_append_singleton (l : List Char) (c : Char) :
    decVal (l ++ [c]) = 10 * decVal l + digitVal c := by
  have h := decVal_aux (l ++ [c]) 0
  simp only [List.foldl_append, List.foldl_cons, List.foldl_nil] at h
  have h2 := decVal_aux l 0
  simp only [Nat.zero_mul, Nat.zero_add] at h h2
  omega

theorem digitVal_digitChar : ∀ k : Nat, k < 10 → digitVal (Nat.digitChar k) = k := by
  decide

theorem toDigitsCore_ten_succ (f n : Nat) (acc : List Char) :
    Nat.toDigitsCore 10 (f + 1) n acc =
      if n / 10 = 0 then Nat.digitChar (n % 10) :: acc
      else Nat.toDigitsCore 10 f (n / 10) (Nat.digitChar (n % 10) :: acc) := rfl

theorem toDigitsCore_acc (fuel : Nat) :
    ∀ (n : Nat) (acc : List Char),
      Nat.toDigitsCore 10 fuel n acc = Nat.toDigitsCore 10 fuel n [] ++ acc := by
  induction fuel with
  | zero => intro n acc; simp [Nat.toDigitsCore]
  | succ f ih =>
    intro n acc
    rw [toDigitsCore_ten_succ, toDigitsCore_ten_succ]
    by_cases h : n / 10 = 0
    · simp [h]
    · simp only [h, if_false]
      rw [ih (n / 10) (Nat.digitChar (n % 10) :: acc),
        ih (n / 10) [Nat.digitChar (n % 10)], List.append_assoc]
      rfl

theorem decVal_toDigitsCore (fuel : Nat) :
    ∀ n : Nat, n < fuel → decVal (Nat.toDigitsCore 10 fuel n []) = n := by
  induction fuel with
  | zero => intro n h; omega
  | succ f ih =>
    intro n hn
    rw [toDigitsCore_ten_succ]
    by_cases h : n / 10 = 0
    · have hn10 : n < 10 := by omega
      have hmod : n % 10 = n := Nat.mod_eq_of_lt hn10
      simp only [h, if_true, decVal_cons, List.foldl_nil, hmod,
        digitVal_digitChar n hn10]
    · have hpos : 0 < n := by
        rcases Nat.eq_zero_or_pos n with h0 | h0
        · exact absurd (by simp [h0]) h
        · exact h0
      have hlt : n / 10 < n := Nat.div_lt_self hpos (by omega)
      have hf : n / 10 < f := by omega
      simp only [h, if_false]
      rw [toDigitsCore_acc, decVal_append_singleton, ih (n / 10) hf,
        digitVal_digitChar (n % 10) (Nat.mod_lt _ (by omega))]
      omega

theorem decVal_repr (n : Nat) : decVal (Nat.repr n).data = n := by
  have : (Nat.repr n).data = Nat.toDigits 10 n := rfl
  rw [this, Nat.toDigits]
  exact decVal_toDigitsCore (n + 1) n (Nat.lt_succ_self n)

theorem natRepr_injective : Function.Injective Nat.repr := by
  intro m n h
  have := congrArg (fun s => decVal s.data) h
  simpa [decVal_repr] using this

/-! ### KeyDeriver lemmas -/

namespace KeyCache

theorem candidate_injective (orig : String) : Function.Injective (candidate orig) := by
  intro i j h
  match i, j with
  | 0, 0 => rfl
  | 0, j + 1 =>
    exfalso
    have := congrArg (fun s => s.data.length) h
    simp [candidate, String.data_append] at this
  | i + 1, 0 =>
    exfalso
    have := congrArg (fun s => s.data.length) h
    simp [candidate, String.data_append] at this
  | i + 1, j + 1 =>
    have hd := congrArg String.data h
    simp only [candidate, String.data_append, List.append_assoc] at hd
    have h3 : (Nat.repr (i + 1)).data = (Nat.repr (j + 1)).data :=
      List.append_cancel_left (List.append_cancel_left hd)
    have h4 : Nat.repr (i + 1) = Nat.repr (j + 1) := String.ext h3
    have := natRepr_injective h4
    omega

theorem exists_fresh (vals : List String) (orig : String) :
    ∃ i, i < vals.length + 1 ∧ candidate orig i ∉ vals := by
  by_contra hcon
  push_neg at hcon
  have hsub : ∀ x ∈ (List.range (vals.length + 1)).map (candidate orig), x ∈ vals := by
    intro x hx
    rcases List.mem_map.mp hx with ⟨i, hi, rfl⟩
    exact hcon i (List.mem_range.mp hi)
  have hnd : ((List.range (vals.length + 1)).map (candidate orig)).Nodup :=
    (List.nodup_range _).map (candidate_injective orig)
  have hsubF : ((List.range (vals.length + 1)).map (candidate orig)).toFinset ⊆ vals.toFinset := by
    intro x hx
    rw [List.mem_toFinset] at hx ⊢
    exact hsub x hx
  have hcard := Finset.card_le_card hsubF
  rw [List.card_toFinset, List.card_toFinset, List.dedup_eq_self.mpr hnd] at hcard
  have hlen : vals.dedup.length ≤ vals.length := by
    simpa using (List.dedup_sublist vals).length_le
  simp only [List.length_map, List.length_range] at hcard
  omega

theorem freshKey_not_mem (vals : List String) (orig : String) :
    freshKey vals orig ∉ vals := by
  unfold freshKey
  cases hf : (List.range (vals.length + 1)).find?
      (fun i => !(vals.contains (candidate orig i))) with
  | some i =>
    have := List.find?_some hf
    simpa using this
  | none =>
    exfalso
    rcases exists_fresh vals orig with ⟨i, hi, hmem⟩
    have := List.find?_eq_none.mp hf i (List.mem_range.mpr hi)
    simp at this
    exact hmem this

theorem lookupK_none_not_mem (c : Cache) (k : CKey) (h : lookupK c k = none) :
    k ∉ c.map (·.1) := by
  intro hmem
  rcases List.mem_map.mp hmem with ⟨e, he, hek⟩
  unfold lookupK at h
  cases hf : c.find? (fun x => decide (x.1 = k)) with
  | some a => rw [hf] at h; simp at h
  | none =>
    have := List.find?_eq_none.mp hf e he
    simp [hek] at this

theorem lookupK_some_mem {c : Cache} {k : CKey} {v : String}
    (h : lookupK c k = some v) : (k, v) ∈ c := by
  unfold lookupK at h
  cases hf : c.find? (fun x => decide (x.1 = k)) with
  | none => rw [hf] at h; simp at h
  | some e =>
    rw [hf] at h
    have hmem := List.mem_of_find?_eq_some hf
    have hpred := List.find?_some hf
    cases e with
    | mk e1 e2 =>
      have he1 : e1 = k := by simpa using hpred
      have he2 : e2 = v := by simpa using h
      rw [← he1, ← he2]
      exact hmem

theorem lookupK_append_of_some {c : Cache} {k : CKey} {v : String}
    (l : Cache) (h : lookupK c k = some v) : lookupK (c ++ l) k = some v := by
  unfold lookupK at h ⊢
  rw [List.find?_append]
  cases hf : c.find? (fun x => decide (x.1 = k)) with
  | none => rw [hf] at h; simp at h
  | some e => rw [hf] at h; simp [h]

theorem values_append (c : Cache) (e : CKey × String) :
    values (c ++ [e]) = values c ++ [e.2] := by
  simp [values]

theorem WFCache_deriveKey (h1 : Nat → String → String) (h2 : String → String)
    (f : Nat → String → String) (c : Cache) (objId : Nat) (name : String)
    (hwf : WFCache c) : WFCache (deriveKey h1 h2 f c objId name).1 := by
  unfold deriveKey
  cases hl : lookupK c (ckey h1 h2 objId name) with
  | some v => simp only [hl]; exact hwf
  | none =>
    simp only [hl]
    constructor
    · rw [List.map_append]
      refine hwf.1.append (by simp) ?_
      intro a ha hb
      simp at hb
      rw [hb] at ha
      exact lookupK_none_not_mem c _ hl ha
    · rw [values_append]
      refine hwf.2.append (by simp) ?_
      intro a ha hb
      simp at hb
      rw [hb] at ha
      exact freshKey_not_mem (values c) (f objId name) ha

theorem WFCache_clearOwner (c : Cache) (objId : Nat) (hwf : WFCache c) :
    WFCache (clearOwner c objId) := by
  unfold clearOwner
  constructor
  · exact hwf.1.sublist ((List.filter_sublist c).map _)
  · exact hwf.2.sublist ((List.filter_sublist c).map _)

theorem WF_values_inj {c : Cache} (hwf : WFCache c) {k1 k2 : CKey} {v1 v2 : String}
    (m1 : (k1, v1) ∈ c) (m2 : (k2, v2) ∈ c) (hk : k1 ≠ k2) : v1 ≠ v2 := by
  intro hv
  have := List.inj_on_of_nodup_map (f := fun e : CKey × String => e.2)
    (by simpa [values] using hwf.2) m1 m2 (by simpa using hv)
  exact hk (congrArg Prod.fst this)

theorem deriveKey_issues (h1 : Nat → String → String) (h2 : String → String)
    (f : Nat → String → String) (c : Cache) (objId : Nat) (name : String) :
    lookupK (deriveKey h1 h2 f c objId name).1 (ckey h1 h2 objId name) =
      some (deriveKey h1 h2 f c objId name).2 := by
  unfold deriveKey
  cases hl : lookupK c (ckey h1 h2 objId name) with
  | some v => simp [hl]
  | none =>
    simp only [hl]
    unfold lookupK at hl ⊢
    rw [List.find?_append]
    cases hfind : c.find? (fun e => decide (e.1 = ckey h1 h2 objId name)) with
    | some e => rw [hfind] at hl; simp at hl
    | none => simp

end KeyCache

namespace KeyCache

theorem lookupK_deriveKey_mono (h1 : Nat → String → String) (h2 : String → String)
    (f : Nat → String → String) (c : Cache) (o : Nat) (n : String)
    {k : CKey} {v : String} (h : lookupK c k = some v) :
    lookupK (deriveKey h1 h2 f c o n).1 k = some v := by
  unfold deriveKey
  cases hl : lookupK c (ckey h1 h2 o n) with
  | some w => simp only [hl]; exact h
  | none => simp only [hl]; exact lookupK_append_of_some _ h

/-- C3.  `_generate_private_attr_name`'s cached wrapper is deterministic
(it is a pure function of the cache state and its arguments) and
idempotent: repeating a derivation for the same `(ownerId, name)` pair
returns the same storage key and leaves the global key cache exactly as
the first call left it. -/
theorem c3_derive_deterministic_idempotent (h1 : Nat → String → String)
    (h2 : String → String) (f : Nat → String → String) (c : Cache)
    (objId : Nat) (name : String) :
    deriveKey h1 h2 f (deriveKey h1 h2 f c objId name).1 objId name =
      deriveKey h1 h2 f c objId name := by
  unfold deriveKey
  cases hl : lookupK c (ckey h1 h2 objId name) with
  | some v => simp [hl]
  | none =>
    simp only [hl]
    have hl2 : lookupK (c ++ [(ckey h1 h2 objId name, freshKey (values c) (f objId name))])
        (ckey h1 h2 objId name) = some (freshKey (values c) (f objId name)) := by
      unfold lookupK at hl ⊢
      rw [List.find?_append]
      cases hfind : c.find? (fun e => decide (e.1 = ckey h1 h2 objId name)) with
      | some e => rw [hfind] at hl; simp at hl
      | none => simp
    simp [hl2]

/-- C4 counterexample.  The claim fails on the code in both directions it
asserts robustness:
(A) when the two SHA-256 components collide simultaneously (modelled by
the constant digests `h1col`/`h2col`), two distinct names on the same
owner share one cache key and receive the *same* storage key — the
disambiguation loop never runs; and
(B) with collision-free digests (`h1inj`/`h2inj`) but a colliding
candidate generator (`fK`), the key `"K"` is first issued to `(2, "b")`,
then — after `clear_function(2)` evicts owner 2 — the *same* key `"K"` is
issued to the different logical input `(1, "a")`, and re-deriving
`(2, "b")` now returns the different key `"K_1"`: eviction breaks both
stability and never-reissue. -/
theorem c4_counterexample :
    ((deriveKey h1col h2col fK [] 1 "a").2 = "K"
      ∧ (deriveKey h1col h2col fK (deriveKey h1col h2col fK [] 1 "a").1 1 "b").2 = "K")
    ∧ ((deriveKey h1inj h2inj fK [] 2 "b").2 = "K"
      ∧ (deriveKey h1inj h2inj fK
          (clearOwner (deriveKey h1inj h2inj fK [] 2 "b").1 2) 1 "a").2 = "K"
      ∧ (deriveKey h1inj h2inj fK
          (deriveKey h1inj h2inj fK
            (clearOwner (deriveKey h1inj h2inj fK [] 2 "b").1 2) 1 "a").1 2 "b").2 = "K_1") := by
  decide

/-- C4 (amended).  As long as no eviction intervenes, key derivation is
collision-free and stable on a well-formed cache: (i) a cached pair is
stable (the derivation returns it and leaves the cache untouched);
(ii) a fresh derivation never reissues a currently live key, even when
the candidate generator collides; (iii) derivations for two inputs whose
cache keys differ (in particular, any two distinct `(ownerId, name)`
pairs when the digest pair is collision-free) return distinct storage
keys; and (iv) well-formedness is preserved, so this holds along any
derivation sequence.  After `clear_function` evicts an owner, none of
this is guaranteed (see the counterexample). -/
theorem c4_keys_stable_and_distinct_amended (h1 : Nat → String → String)
    (h2 : String → String) (f : Nat → String → String) :
    (∀ (c : Cache) (o : Nat) (n : String) (v : String),
      lookupK c (ckey h1 h2 o n) = some v → deriveKey h1 h2 f c o n = (c, v))
    ∧ (∀ (c : Cache) (o : Nat) (n : String), WFCache c →
        lookupK c (ckey h1 h2 o n) = none →
        (deriveKey h1 h2 f c o n).2 ∉ values c)
    ∧ (∀ (c : Cache) (o1 : Nat) (n1 : String) (o2 : Nat) (n2 : String), WFCache c →
        ckey h1 h2 o1 n1 ≠ ckey h1 h2 o2 n2 →
        (deriveKey h1 h2 f (deriveKey h1 h2 f c o1 n1).1 o2 n2).2
          ≠ (deriveKey h1 h2 f c o1 n1).2)
    ∧ (∀ (c : Cache) (o : Nat) (n : String), WFCache c →
        WFCache (deriveKey h1 h2 f c o n).1) := by
  refine ⟨?_, ?_, ?_, ?_⟩
  · intro c o n v h
    unfold deriveKey
    simp [h]
  · intro c o n _ h
    unfold deriveKey
    simp only [h]
    exact freshKey_not_mem (values c) (f o n)
  · intro c o1 n1 o2 n2 hwf hk
    have hi1 := deriveKey_issues h1 h2 f c o1 n1
    have hc1 := WFCache_deriveKey h1 h2 f c o1 n1 hwf
    have hi2 := deriveKey_issues h1 h2 f (deriveKey h1 h2 f c o1 n1).1 o2 n2
    have hc2 := WFCache_deriveKey h1 h2 f (deriveKey h1 h2 f c o1 n1).1 o2 n2 hc1
    have hm1 : lookupK (deriveKey h1 h2 f (deriveKey h1 h2 f c o1 n1).1 o2 n2).1
        (ckey h1 h2 o1 n1) = some (deriveKey h1 h2 f c o1 n1).2 :=
      lookupK_deriveKey_mono h1 h2 f _ o2 n2 hi1
    have e1 := lookupK_some_mem hm1
    have e2 := lookupK_some_mem hi2
    exact WF_values_inj hc2 e2 e1 (Ne.symm hk)
  · intro c o n hwf
    exact WFCache_deriveKey h1 h2 f c o n hwf

/-- Witness for the amended C4: the theorem applied at the injective
concrete digests, with every hypothesis discharged at concrete inputs. -/
theorem c4_amended_witness :
    (deriveKey h1inj h2inj fK [(ckey h1inj h2inj 1 "a", "A")] 1 "a"
      = ([(ckey h1inj h2inj 1 "a", "A")], "A"))
    ∧ (deriveKey h1inj h2inj fK [] 2 "b").2 ∉ values ([] : Cache)
    ∧ ((deriveKey h1inj h2inj fK (deriveKey h1inj h2inj fK [] 1 "a").1 2 "b").2
        ≠ (deriveKey h1inj h2inj fK [] 1 "a").2)
    ∧ WFCache (deriveKey h1inj h2inj fK [] 1 "a").1 := by
  refine ⟨?_, ?_, ?_, ?_⟩
  · exact (c4_keys_stable_and_distinct_amended h1inj h2inj fK).1
      [(ckey h1inj h2inj 1 "a", "A")] 1 "a" "A" (by decide)
  · exact (c4_keys_stable_and_distinct_amended h1inj h2inj fK).2.1
      [] 2 "b" (by constructor <;> decide) (by decide)
  · exact (c4_keys_stable_and_distinct_amended h1inj h2inj fK).2.2.1
      [] 1 "a" 2 "b" (by constructor <;> decide) (by decide)
  · exact (c4_keys_stable_and_distinct_amended h1inj h2inj fK).2.2.2
      [] 1 "a" (by constructor <;> decide)

end KeyCache

/-! ### Interceptor lemmas -/

namespace PrivAttr

theorem ensureObj_name {V : Type} (c : Cls V) (iid : Nat) :
    (ensureObj c iid).name = c.name := by
  unfold ensureObj
  cases nlookup c.objStore iid <;> rfl

theorem ensureObj_allowed {V : Type} (c : Cls V) (iid : Nat) :
    (ensureObj c iid).allowed = c.allowed := by
  unfold ensureObj
  cases nlookup c.objStore iid <;> rfl

theorem isClassFrameB_ensureObj {V : Type} (c : Cls V) (iid : Nat)
    (ba : List Nat) (fr : Option Frame) :
    isClassFrameB (ensureObj c iid) ba fr = isClassFrameB c ba fr := by
  unfold ensureObj
  cases h : nlookup c.objStore iid with
  | some d => rfl
  | none =>
    cases fr with
    | none => rfl
    | some f =>
      simp only [isClassFrameB, is_class_frame]
      split_ifs <;> rfl

theorem nlookup_ensureObj {V : Type} (c : Cls V) (iid : Nat) :
    nlookup (ensureObj c iid).objStore iid = some (objFor c iid) := by
  unfold ensureObj objFor
  cases h : nlookup c.objStore iid with
  | some d => simp [h]
  | none =>
    simp only [h, Option.getD_none]
    unfold nlookup at h ⊢
    rw [List.find?_append]
    cases hf : c.objStore.find? (fun e => decide (e.1 = iid)) with
    | some e => rw [hf] at h; simp at h
    | none => simp

theorem objFor_ensureObj {V : Type} (c : Cls V) (iid : Nat) :
    objFor (ensureObj c iid) iid = objFor c iid := by
  unfold objFor
  rw [nlookup_ensureObj]
  rfl

theorem nlookup_mapEntry {V : Type} (l : List (Nat × List (String × V))) (iid : Nat)
    (g : List (String × V) → List (String × V)) :
    nlookup (l.map (fun e => if e.1 = iid then (e.1, g e.2) else e)) iid =
      (nlookup l iid).map g := by
  induction l with
  | nil => rfl
  | cons e t ih =>
    unfold nlookup at ih ⊢
    by_cases h : e.1 = iid
    · simp [h]
    · simp only [List.map_cons, if_neg h]
      rw [List.find?_cons_of_neg _ (by simpa using h),
        List.find?_cons_of_neg _ (by simpa using h)]
      exact ih

theorem nlookup_writeObj_aux {V : Type} (l : List (Nat × List (String × V))) (iid : Nat)
    (k : String) (v : V) :
    nlookup (l.map (fun e => if e.1 = iid then (e.1, aset e.2 k v) else e)) iid =
      (nlookup l iid).map (fun d => aset d k v) :=
  nlookup_mapEntry l iid (fun d => aset d k v)

theorem alookup_aset_self {V : Type} (l : List (String × V)) (k : String) (v : V) :
    alookup (aset l k v) k = some v := by
  induction l with
  | nil => simp [aset, alookup]
  | cons e t ih =>
    unfold aset
    by_cases h : e.1 = k
    · cases e with
      | mk k' v' => simp only at h; simp [h, alookup]
    · cases e with
      | mk k' v' =>
        simp only at h
        simp only [if_neg h]
        unfold alookup at ih ⊢
        rw [List.find?_cons_of_neg _ (by simpa using h)]
        exact ih

theorem objFor_writeObj_ensureObj {V : Type} (c : Cls V) (iid : Nat)
    (k : String) (v : V) :
    objFor (writeObj (ensureObj c iid) iid k v) iid = aset (objFor c iid) k v := by
  unfold writeObj objFor
  simp only
  rw [nlookup_writeObj_aux, nlookup_ensureObj]
  rfl

theorem adel_none_of_alookup_none {V : Type} (l : List (String × V)) (k : String)
    (h : alookup l k = none) : adel l k = none := by
  induction l with
  | nil => rfl
  | cons e t ih =>
    cases e with
    | mk k' v' =>
      unfold alookup at h ih
      unfold adel
      by_cases hk : k' = k
      · rw [List.find?_cons_of_pos _ (by simpa using hk)] at h
        simp at h
      · rw [List.find?_cons_of_neg _ (by simpa using hk)] at h
        simp only [if_neg hk]
        rw [ih h]
        rfl

/-- `is_class_frame` trusts any frame whose code is one of the shared
interceptor code objects (source lines 198-204), whatever the class. -/
theorem isClassFrameB_interFrame {V : Type} (c : Cls V) (ba : List Nat) :
    isClassFrameB c ba (some interFrame) = true := by
  unfold isClassFrameB is_class_frame interFrame
  by_cases h : (c.allowed ++ ba).contains 91 <;>
    simp [h, interceptorCodes]

/-- C5 core: membership of the caller's code object in the trusted-unit
set is sufficient for `is_class_frame` to judge the frame trusted
(source lines 192-197), provided the frame is not module-level code. -/
theorem isClassFrameB_of_mem {V : Type} (c : Cls V) (ba : List Nat) (f : Frame)
    (hmod : f.isModuleLevel = false) (hcode : f.code ∈ c.allowed ++ ba) :
    isClassFrameB c ba (some f) = true := by
  unfold isClassFrameB is_class_frame
  simp [hmod, hcode]

/-- The trusted read path of the installed `__getattr__` (source lines
254-280), as the cascade the code performs. -/
theorem instGetattr_trusted_cascade {V : Type} (nc : Nat → String → String)
    (c : Cls V) (rest : List (Cls V)) (iid : Nat) (fr : Option Frame) (attr : String)
    (hpriv : attr ∈ c.privs)
    (htr : isClassFrameB c (basesAllowed rest) fr = true)
    (hself : callerSelfOK fr = true) :
    instGetattr nc (c :: rest) iid fr attr =
      match alookup (objFor c iid) (nc iid attr) with
      | some v => .ok v
      | none =>
        match alookup (objFor c iid) (nc c.tid attr) with
        | some v => .ok v
        | none =>
          match c.typeStore with
          | none => .error (.noAttr c.name attr)
          | some ts =>
            match alookup ts (nc c.tid attr) with
            | some v => .ok v
            | none => .error (.noAttr c.name attr) := by
  cases rest with
  | nil => simp [instGetattr, hpriv, htr, hself]
  | cons b bs => simp [instGetattr, hpriv, htr, hself]

/-- The untrusted read path (source lines 249-252). -/
theorem instGetattr_untrusted {V : Type} (nc : Nat → String → String)
    (c : Cls V) (rest : List (Cls V)) (iid : Nat) (fr : Option Frame) (attr : String)
    (hpriv : attr ∈ c.privs)
    (hun : isClassFrameB c (basesAllowed rest) fr = false) :
    instGetattr nc (c :: rest) iid fr attr = .error (.noAttr c.name attr) := by
  cases rest with
  | nil => simp [instGetattr, hpriv, hun]
  | cons b bs => simp [instGetattr, hpriv, hun]

/-- The trusted write path (source lines 331-344). -/
theorem instSetattr_trusted {V : Type} (nc : Nat → String → String)
    (c : Cls V) (rest : List (Cls V)) (iid : Nat) (fr : Option Frame) (attr : String)
    (v : V) (ns : List (String × V))
    (hpriv : attr ∈ c.privs)
    (htr : isClassFrameB c (basesAllowed rest) fr = true)
    (hself : callerSelfOK fr = true) :
    instSetattr nc (c :: rest) iid fr attr v ns =
      (.ok (), writeObj (ensureObj c iid) iid (nc iid attr) v :: rest, ns) := by
  cases rest with
  | nil => simp [instSetattr, hpriv, isClassFrameB_ensureObj, htr, hself]
  | cons b bs => simp [instSetattr, hpriv, isClassFrameB_ensureObj, htr, hself]

/-- The untrusted write path (source lines 334-337). -/
theorem instSetattr_untrusted {V : Type} (nc : Nat → String → String)
    (c : Cls V) (rest : List (Cls V)) (iid : Nat) (fr : Option Frame) (attr : String)
    (v : V) (ns : List (String × V))
    (hpriv : attr ∈ c.privs)
    (hun : isClassFrameB c (basesAllowed rest) fr = false) :
    (instSetattr nc (c :: rest) iid fr attr v ns).1 =
      .error (.cannotSet attr c.name) := by
  cases rest with
  | nil => simp [instSetattr, hpriv, isClassFrameB_ensureObj, hun, ensureObj_name]
  | cons b bs => simp [instSetattr, hpriv, isClassFrameB_ensureObj, hun, ensureObj_name]

/-- The untrusted delete path (source lines 386-390). -/
theorem instDelattr_untrusted {V : Type} (nc : Nat → String → String)
    (c : Cls V) (rest : List (Cls V)) (iid : Nat) (fr : Option Frame) (attr : String)
    (sname : String) (ns : List (String × V))
    (hpriv : attr ∈ c.privs)
    (hun : isClassFrameB c (basesAllowed rest) fr = false) :
    (instDelattr nc (c :: rest) iid fr attr sname ns).1 =
      .error (.cannotDel attr c.name) := by
  cases rest with
  | nil => simp [instDelattr, hpriv, isClassFrameB_ensureObj, hun, ensureObj_name]
  | cons b bs => simp [instDelattr, hpriv, isClassFrameB_ensureObj, hun, ensureObj_name]

/-- The trusted delete path, present key (source lines 391-394). -/
theorem instDelattr_trusted_present {V : Type} (nc : Nat → String → String)
    (c : Cls V) (rest : List (Cls V)) (iid : Nat) (fr : Option Frame) (attr : String)
    (sname : String) (ns : List (String × V)) (c2 : Cls V)
    (hpriv : attr ∈ c.privs)
    (htr : isClassFrameB c (basesAllowed rest) fr = true)
    (hself : callerSelfOK fr = true)
    (hdel : delObj (ensureObj c iid) iid (nc iid attr) = some c2) :
    instDelattr nc (c :: rest) iid fr attr sname ns = (.ok (), c2 :: rest, ns) := by
  cases rest with
  | nil => simp [instDelattr, hpriv, isClassFrameB_ensureObj, htr, hself, hdel]
  | cons b bs => simp [instDelattr, hpriv, isClassFrameB_ensureObj, htr, hself, hdel]

/-- The trusted delete path, missing key (source lines 393-398): the
`KeyError` is converted to the not-found `AttributeError`. -/
theorem instDelattr_trusted_missing {V : Type} (nc : Nat → String → String)
    (c : Cls V) (rest : List (Cls V)) (iid : Nat) (fr : Option Frame) (attr : String)
    (sname : String) (ns : List (String × V))
    (hpriv : attr ∈ c.privs)
    (htr : isClassFrameB c (basesAllowed rest) fr = true)
    (hself : callerSelfOK fr = true)
    (hmiss : alookup (objFor c iid) (nc iid attr) = none) :
    (instDelattr nc (c :: rest) iid fr attr sname ns).1 =
      .error (.noAttr c.name attr) := by
  have hd : delObj (ensureObj c iid) iid (nc iid attr) = none := by
    unfold delObj
    rw [objFor_ensureObj,
      adel_none_of_alookup_none _ _ hmiss]
    rfl
  simp [instDelattr, hpriv, isClassFrameB_ensureObj, htr, hself, hd, ensureObj_name]

end PrivAttr

namespace PrivAttr

theorem ensureObj_privs {V : Type} (c : Cls V) (iid : Nat) :
    (ensureObj c iid).privs = c.privs := by
  unfold ensureObj
  cases nlookup c.objStore iid <;> rfl

theorem ensureObj_tid {V : Type} (c : Cls V) (iid : Nat) :
    (ensureObj c iid).tid = c.tid := by
  unfold ensureObj
  cases nlookup c.objStore iid <;> rfl

/-- First characters survive string append. -/
theorem data_head_append (s t : String) (c : Char) (h : s.data.head? = some c) :
    (s ++ t).data.head? = some c := by
  rw [String.data_append]
  cases hd : s.data with
  | nil => rw [hd] at h; simp at h
  | cons a l => rw [hd] at h; simpa using h

/-- A "cannot set private attribute ..." message never coincides with a
"... has no attribute ..." message, whatever the names involved. -/
theorem cannotSet_msg_ne (a t t' a' : String) :
    (AErr.cannotSet a t).msg ≠ (AErr.noAttr t' a').msg := by
  intro h
  have h1 : (AErr.cannotSet a t).msg.data.head? = some 'c' :=
    data_head_append _ _ _ (by decide)
  have h2 : (AErr.noAttr t' a').msg.data.head? = some '\'' :=
    data_head_append _ _ _ (by decide)
  rw [h, h2] at h1
  simp at h1

/-- A "cannot delete private attribute ..." message never coincides with a
"... has no attribute ..." message. -/
theorem cannotDel_msg_ne (a t t' a' : String) :
    (AErr.cannotDel a t).msg ≠ (AErr.noAttr t' a').msg := by
  intro h
  have h1 : (AErr.cannotDel a t).msg.data.head? = some 'c' :=
    data_head_append _ _ _ (by decide)
  have h2 : (AErr.noAttr t' a').msg.data.head? = some '\'' :=
    data_head_append _ _ _ (by decide)
  rw [h, h2] at h1
  simp at h1

end PrivAttr

/-! ### Claim theorems: instance-level access control -/

open PrivAttr

/-- C1 counterexample.  On the standard hierarchy `C(PrivateAttrBase)`,
an untrusted read of the declared private name `"p"` raises
`AttributeError: 'C' object has no attribute 'p'`, but reading the same
name when it is *not* declared raises
`AttributeError: 'Base' object has no attribute 'p'`: the absent-name
error is produced by the base class's `__getattr__` closure (source lines
310-319) and names the base type, so the two messages differ and an
external observer can distinguish a declared private name from an absent
one. -/
theorem c1_counterexample :
    readAttr Scenario.ncX [Scenario.clsC, Scenario.clsBase] "C" [] 1
        (some Scenario.frU) "p"
      = .error (.noAttr "C" "p")
    ∧ readAttr Scenario.ncX [{ Scenario.clsC with privs := [] }, Scenario.clsBase] "C" [] 1
        (some Scenario.frU) "p"
      = .error (.noAttr "Base" "p")
    ∧ (AErr.noAttr "C" "p").msg ≠ (AErr.noAttr "Base" "p").msg := by
  refine ⟨?_, ?_, by decide⟩
  · simp [readAttr, instGetattribute, instGetattr, tryTailGet, isClassFrameB,
      is_class_frame, basesAllowed, Scenario.clsC, Scenario.clsBase, Scenario.frU,
      interceptorCodes, startsWithAny, callerSelfOK, alookup, interFrame]
  · simp [readAttr, instGetattribute, instGetattr, tryTailGet, isClassFrameB,
      is_class_frame, basesAllowed, Scenario.clsC, Scenario.clsBase, Scenario.frU,
      interceptorCodes, startsWithAny, callerSelfOK, alookup, interFrame]

/-- C1 (amended).  Both the untrusted read of a declared private name and
the read of a genuinely absent name raise an `AttributeError` of the same
"has no attribute" form; the embedded class name is the declaring class
for the private read and the terminal `PrivateAttrType` class of the mro
walk for the absent read, so the two messages coincide (and external
indistinguishability holds) exactly for types whose `__mro__[1:]`
contains no `PrivateAttrType` class — here, a one-class chain. -/
theorem c1_amended {V : Type} (nc : Nat → String → String) (c : Cls V)
    (ns : List (String × V)) (iid : Nat) (fr : Option Frame) (sname : String)
    (attr attr2 : String)
    (hpriv : attr ∈ c.privs)
    (hun : isClassFrameB c (basesAllowed ([] : List (Cls V))) fr = false)
    (h1 : attr2 ∉ c.privs) (h2 : attr2 ∉ c.hists) (h3 : alookup ns attr2 = none) :
    readAttr nc [c] sname ns iid fr attr = .error (.noAttr c.name attr)
    ∧ readAttr nc [c] sname ns iid fr attr2 = .error (.noAttr c.name attr2) := by
  constructor
  · have hga : instGetattribute sname ns [c] attr = .error (.noAttr c.name attr) := by
      simp [instGetattribute, hpriv]
    simp [readAttr, hga, instGetattr_untrusted nc c [] iid fr attr hpriv hun]
  · have hga : instGetattribute sname ns [c] attr2 = .error (.noAttr sname attr2) := by
      simp [instGetattribute, h1, h2, h3]
    simp [readAttr, hga, instGetattr, h1, h2]

/-- Witness for the amended C1 at the concrete one-class scenario. -/
theorem c1_amended_witness :
    readAttr Scenario.ncX [Scenario.clsC] "C" [] 1 (some Scenario.frU) "p"
      = .error (.noAttr "C" "p")
    ∧ readAttr Scenario.ncX [Scenario.clsC] "C" [] 1 (some Scenario.frU) "q"
      = .error (.noAttr "C" "q") :=
  c1_amended Scenario.ncX Scenario.clsC [] 1 (some Scenario.frU) "C" "p" "q"
    (by decide) (by rfl) (by decide) (by decide) (by rfl)

/-- C2.  An untrusted write of a declared private name raises the
`cannot set private attribute ...` error, an untrusted delete the
`cannot delete private attribute ...` error, while the untrusted read
raises the same `... has no attribute ...` form used for absent names;
and the write/delete messages are distinct from the read's not-found
message for every combination of attribute and type names. -/
theorem c2_untrusted_write_delete_forbidden {V : Type} (nc : Nat → String → String)
    (c : Cls V) (rest : List (Cls V)) (iid : Nat) (fr : Option Frame)
    (attr : String) (v : V) (sname : String) (ns : List (String × V))
    (hpriv : attr ∈ c.privs)
    (hun : isClassFrameB c (basesAllowed rest) fr = false) :
    ((instSetattr nc (c :: rest) iid fr attr v ns).1 = .error (.cannotSet attr c.name))
    ∧ ((instDelattr nc (c :: rest) iid fr attr sname ns).1 = .error (.cannotDel attr c.name))
    ∧ (instGetattr nc (c :: rest) iid fr attr = .error (.noAttr c.name attr))
    ∧ (∀ a t t' a', (AErr.cannotSet a t).msg ≠ (AErr.noAttr t' a').msg)
    ∧ (∀ a t t' a', (AErr.cannotDel a t).msg ≠ (AErr.noAttr t' a').msg) :=
  ⟨instSetattr_untrusted nc c rest iid fr attr v ns hpriv hun,
   instDelattr_untrusted nc c rest iid fr attr sname ns hpriv hun,
   instGetattr_untrusted nc c rest iid fr attr hpriv hun,
   cannotSet_msg_ne, cannotDel_msg_ne⟩

/-- Witness for C2 at the concrete scenario. -/
theorem c2_witness :
    ((instSetattr Scenario.ncX [Scenario.clsC] 1 (some Scenario.frU) "p" (5 : Int) []).1
      = .error (.cannotSet "p" "C"))
    ∧ ((instDelattr Scenario.ncX [Scenario.clsC] 1 (some Scenario.frU) "p" "C" []).1
      = .error (.cannotDel "p" "C"))
    ∧ (instGetattr Scenario.ncX [Scenario.clsC] 1 (some Scenario.frU) "p"
      = .error (.noAttr "C" "p"))
    ∧ (AErr.cannotSet "p" "C").msg ≠ (AErr.noAttr "C" "p").msg := by
  have h := c2_untrusted_write_delete_forbidden Scenario.ncX Scenario.clsC [] 1
    (some Scenario.frU) "p" (5 : Int) "C" [] (by decide) (by rfl)
  exact ⟨h.1, h.2.1, h.2.2.1, h.2.2.2.1 "p" "C" "C" "p"⟩

/-- C5 counterexample.  The frame `frNoSelf` runs code object `7`, which
is in `clsC`'s trusted-unit set, so the validator judges it trusted; but
the access is *not* granted: the instance-level read still raises the
not-found error and the write still raises the cannot-set error, because
the hooks additionally require the caller frame to bind `self` to an
instance of the owning type (source lines 254, 281-284, 338, 341-344). -/
theorem c5_counterexample :
    isClassFrameB Scenario.clsC [] (some Scenario.frNoSelf) = true
    ∧ instGetattr Scenario.ncX [Scenario.clsC] 1 (some Scenario.frNoSelf) "p"
        = .error (.noAttr "C" "p")
    ∧ (instSetattr Scenario.ncX [Scenario.clsC] 1 (some Scenario.frNoSelf) "p" (5 : Int) []).1
        = .error (.cannotSet "p" "C") := by
  refine ⟨by rfl, ?_, ?_⟩
  · simp [instGetattr, isClassFrameB, is_class_frame, basesAllowed, Scenario.clsC,
      Scenario.frNoSelf, interceptorCodes, startsWithAny, callerSelfOK]
  · simp [instSetattr, isClassFrameB, is_class_frame, basesAllowed, Scenario.clsC,
      Scenario.frNoSelf, interceptorCodes, startsWithAny, callerSelfOK, ensureObj,
      nlookup, ensureObj_name]

/-- C5 (amended).  Membership of the caller's code object in the owning
type's trusted-unit set (plus not being module-level code) is sufficient
for `is_class_frame` to judge the access trusted; the access is
additionally *granted* when the caller frame binds `self` to an instance
of the owning type, in which case a private write succeeds and stores the
value under the instance-scoped storage key, where a subsequent read from
the same caller finds it. -/
theorem c5_trusted_unit_judged_and_granted_amended {V : Type}
    (nc : Nat → String → String) (c : Cls V) (rest : List (Cls V)) (iid : Nat)
    (f : Frame) (attr : String) (v : V) (ns : List (String × V))
    (hmod : f.isModuleLevel = false)
    (hcode : f.code ∈ c.allowed ++ basesAllowed rest)
    (hpriv : attr ∈ c.privs) :
    isClassFrameB c (basesAllowed rest) (some f) = true
    ∧ (f.selfIsInst = true →
        instSetattr nc (c :: rest) iid (some f) attr v ns
          = (.ok (), writeObj (ensureObj c iid) iid (nc iid attr) v :: rest, ns)
        ∧ instGetattr nc (writeObj (ensureObj c iid) iid (nc iid attr) v :: rest)
            iid (some f) attr = .ok v) := by
  have htr : isClassFrameB c (basesAllowed rest) (some f) = true :=
    isClassFrameB_of_mem c (basesAllowed rest) f hmod hcode
  refine ⟨htr, fun hself => ⟨?_, ?_⟩⟩
  · exact instSetattr_trusted nc c rest iid (some f) attr v ns hpriv htr
      (by simp [callerSelfOK, hself])
  · have hpriv2 : attr ∈ (writeObj (ensureObj c iid) iid (nc iid attr) v).privs := by
      have : (writeObj (ensureObj c iid) iid (nc iid attr) v).privs
          = (ensureObj c iid).privs := rfl
      rw [this, ensureObj_privs]
      exact hpriv
    have hcode2 : f.code ∈ (writeObj (ensureObj c iid) iid (nc iid attr) v).allowed
        ++ basesAllowed rest := by
      have : (writeObj (ensureObj c iid) iid (nc iid attr) v).allowed
          = (ensureObj c iid).allowed := rfl
      rw [this, ensureObj_allowed]
      exact hcode
    have htr2 := isClassFrameB_of_mem (writeObj (ensureObj c iid) iid (nc iid attr) v)
      (basesAllowed rest) f hmod hcode2
    rw [instGetattr_trusted_cascade nc _ rest iid (some f) attr hpriv2 htr2
      (by simp [callerSelfOK, hself])]
    rw [objFor_writeObj_ensureObj, alookup_aset_self]

/-- Witness for the amended C5: trusted code with `self` bound writes and
reads back a private value. -/
theorem c5_amended_witness :
    isClassFrameB Scenario.clsC [] (some Scenario.frT) = true
    ∧ instSetattr Scenario.ncX [Scenario.clsC] 1 (some Scenario.frT) "p" (5 : Int) []
        = (.ok (), writeObj (ensureObj Scenario.clsC 1) 1 (Scenario.ncX 1 "p") 5 :: [], [])
    ∧ instGetattr Scenario.ncX
        [writeObj (ensureObj Scenario.clsC 1) 1 (Scenario.ncX 1 "p") (5 : Int)] 1
        (some Scenario.frT) "p" = .ok 5 := by
  have h := c5_trusted_unit_judged_and_granted_amended Scenario.ncX Scenario.clsC []
    1 Scenario.frT "p" (5 : Int) [] (by rfl) (by decide) (by decide)
  have h2 := h.2 (by rfl)
  exact ⟨h.1, h2.1, h2.2⟩

/-- C6.  On a trusted instance-level read of a declared private name the
value resolves in the claimed order — the instance's own storage key in
the per-instance store, else the owner-type-level default in the type
store, else the not-found `AttributeError` — and a trusted delete of a
private name with no stored instance value raises the same not-found
`AttributeError`.  (`hsep` records that the per-instance store holds no
entry under the type-scoped key, which the interposed lookup of source
lines 259-261 would consult; instance writes only ever create
instance-scoped keys.) -/
theorem c6_trusted_resolution_order {V : Type} (nc : Nat → String → String)
    (c : Cls V) (rest : List (Cls V)) (iid : Nat) (fr : Option Frame)
    (attr : String) (sname : String) (ns : List (String × V))
    (hpriv : attr ∈ c.privs)
    (htr : isClassFrameB c (basesAllowed rest) fr = true)
    (hself : callerSelfOK fr = true)
    (hsep : alookup (objFor c iid) (nc c.tid attr) = none) :
    (instGetattr nc (c :: rest) iid fr attr =
      match alookup (objFor c iid) (nc iid attr) with
      | some v => .ok v
      | none =>
        match c.typeStore.bind (fun ts => alookup ts (nc c.tid attr)) with
        | some w => .ok w
        | none => .error (.noAttr c.name attr))
    ∧ (alookup (objFor c iid) (nc iid attr) = none →
        (instDelattr nc (c :: rest) iid fr attr sname ns).1 =
          .error (.noAttr c.name attr)) := by
  constructor
  · rw [instGetattr_trusted_cascade nc c rest iid fr attr hpriv htr hself, hsep]
    cases alookup (objFor c iid) (nc iid attr) with
    | some v => rfl
    | none =>
      cases c.typeStore with
      | none => rfl
      | some ts =>
        rw [Option.some_bind]
  · intro hmiss
    exact instDelattr_trusted_missing nc c rest iid fr attr sname ns hpriv htr hself hmiss

/-- Witness for C6: with an empty instance store and a type-level default
`9`, the trusted read returns the default and the trusted delete raises
the not-found error. -/
theorem c6_witness :
    instGetattr Scenario.ncX [{ Scenario.clsC with typeStore := some [("100.p", (9 : Int))] }]
        1 (some Scenario.frT) "p" = .ok 9
    ∧ (instDelattr Scenario.ncX [{ Scenario.clsC with typeStore := some [("100.p", (9 : Int))] }]
        1 (some Scenario.frT) "p" "C" []).1 = .error (.noAttr "C" "p") := by
  have h := c6_trusted_resolution_order Scenario.ncX
    { Scenario.clsC with typeStore := some [("100.p", (9 : Int))] } [] 1
    (some Scenario.frT) "p" "C" [] (by decide) (by rfl) (by rfl) (by rfl)
  refine ⟨?_, h.2 (by rfl)⟩
  rw [h.1]
  rfl

/-- C7.  For a private name declared on the base `b` and only inherited
by the subclass `c`, a trusted access from subclass code is delegated to
`b`'s own hooks: the read returns the value held in `b`'s per-instance
store, the write updates `b`'s store (leaving `c`'s state untouched in
the returned chain), and the delete removes the key from `b`'s store —
there is no subclass-local copy. -/
theorem c7_inherited_uses_base_store {V : Type} (nc : Nat → String → String)
    (c b : Cls V) (rest : List (Cls V)) (iid : Nat) (f : Frame) (attr : String)
    (v w : V) (sname : String) (ns : List (String × V))
    (hhist : attr ∈ c.hists) (hnp : attr ∉ c.privs) (hbp : attr ∈ b.privs)
    (htr : isClassFrameB c (basesAllowed (b :: rest)) (some f) = true)
    (hself : f.selfIsInst = true) :
    (alookup (objFor b iid) (nc iid attr) = some w →
      instGetattr nc (c :: b :: rest) iid (some f) attr = .ok w)
    ∧ instSetattr nc (c :: b :: rest) iid (some f) attr v ns
        = (.ok (), c :: writeObj (ensureObj b iid) iid (nc iid attr) v :: rest, ns)
    ∧ (∀ b2, delObj (ensureObj b iid) iid (nc iid attr) = some b2 →
        instDelattr nc (c :: b :: rest) iid (some f) attr sname ns
          = (.ok (), c :: b2 :: rest, ns)) := by
  have hselfOK : callerSelfOK (some f) = true := by simp [callerSelfOK, hself]
  refine ⟨?_, ?_, ?_⟩
  · intro hw
    have hinner := instGetattr_trusted_cascade nc b rest iid (some interFrame) attr
      hbp (isClassFrameB_interFrame b (basesAllowed rest)) (by rfl)
    rw [hw] at hinner
    simp [instGetattr, hnp, hhist, htr, hselfOK, tryTailGet, hinner]
  · have hinner := instSetattr_trusted nc b rest iid (some interFrame) attr v ns
      hbp (isClassFrameB_interFrame b (basesAllowed rest)) (by rfl)
    simp [instSetattr, hnp, hhist, htr, hselfOK, hinner]
  · intro b2 hdel
    have hinner := instDelattr_trusted_present nc b rest iid (some interFrame) attr
      "" ns b2 hbp (isClassFrameB_interFrame b (basesAllowed rest)) (by rfl) hdel
    simp [instDelattr, hnp, hhist, htr, hselfOK, tryTailDel, hinner]

/-- Witness for C7: subclass code (code object `8`, trusted for `Sub`)
reads, overwrites and deletes the inherited private name `"p"`, whose
value lives in the base `C`'s store. -/
theorem c7_witness :
    instGetattr Scenario.ncX [Scenario.clsSub, Scenario.clsCStored] 1
        (some Scenario.frSub) "p" = .ok 5
    ∧ instSetattr Scenario.ncX [Scenario.clsSub, Scenario.clsCStored] 1
        (some Scenario.frSub) "p" (7 : Int) []
        = (.ok (), Scenario.clsSub ::
            writeObj (ensureObj Scenario.clsCStored 1) 1 (Scenario.ncX 1 "p") 7 :: [], [])
    ∧ instDelattr Scenario.ncX [Scenario.clsSub, Scenario.clsCStored] 1
        (some Scenario.frSub) "p" "Sub" []
        = (.ok (), Scenario.clsSub ::
            { Scenario.clsCStored with objStore := [(1, [])] } :: [], []) := by
  have h := c7_inherited_uses_base_store Scenario.ncX Scenario.clsSub
    Scenario.clsCStored [] 1 Scenario.frSub "p" (7 : Int) (5 : Int) "Sub" []
    (by decide) (by decide) (by decide) (by rfl) (by rfl)
  exact ⟨h.1 (by rfl), h.2.1,
    h.2.2 { Scenario.clsCStored with objStore := [(1, [])] } (by rfl)⟩

/-- C10.  For every name in the fixed hook list, a class-level attribute
assignment or deletion raises `AttributeError` before any trust check is
consulted (the guard is the first statement of both metaclass hooks), so
the interception machinery cannot be replaced or removed through the
class attribute interface, whatever the caller. -/
theorem c10_hook_names_immutable {V : Type} (nc : Nat → String → String)
    (c : Cls V) (rest : List (Cls V)) (fr : Option Frame) (attr : String) (v : V)
    (hattr : attr ∈ hookNames) :
    metaSetattr nc (c :: rest) fr attr v = (.error (.hookSet attr c.name), c :: rest)
    ∧ metaDelattr nc (c :: rest) fr attr = (.error (.hookDel attr c.name), c :: rest) := by
  constructor
  · simp [metaSetattr, hattr]
  · simp [metaDelattr, hattr]

/-- Witness for C10: assigning or deleting `__getattribute__` on the
class is refused even for a fully trusted caller frame. -/
theorem c10_witness :
    metaSetattr Scenario.ncX [Scenario.clsC] (some Scenario.frT) "__getattribute__" (5 : Int)
      = (.error (.hookSet "__getattribute__" "C"), [Scenario.clsC])
    ∧ metaDelattr Scenario.ncX [Scenario.clsC] (some Scenario.frT) "__getattribute__"
      = (.error (.hookDel "__getattribute__" "C"), [Scenario.clsC]) :=
  c10_hook_names_immutable Scenario.ncX Scenario.clsC [] (some Scenario.frT)
    "__getattribute__" (5 : Int) (by decide)

/-- C8.  Evaluating the `PrivateAttrType.__new__` validation sequence:
a non-string element of `__private_attrs__` raises `AttributeError`
(from `i.encode` in the hashing loop at source lines 134-135) rather than
the `TypeError` the claim and the (unreachable) check at source lines
159-160 prescribe, while the other four configuration errors of the
claim — missing declaration, reserved name (`__dict__`), slot collision,
duplicate type name in one module — do raise `TypeError` at
type-definition time. -/
theorem c8_validation_evaluation :
    TypeNew.pnew [] { name := "X", attrs := [], privDecl := some [TypeNew.PVal.intv 1], slots := [], module := 0 }
      = .error (.attrErr "'int' object has no attribute 'encode'")
    ∧ TypeNew.pnew [] { name := "X", attrs := [], privDecl := some [TypeNew.PVal.str "__dict__"], slots := [], module := 0 }
      = .error (.typeErr "'__private_attrs__' cannot contain the invalid attribute name '__dict__'")
    ∧ TypeNew.pnew [] { name := "X", attrs := [], privDecl := none, slots := [], module := 0 }
      = .error (.typeErr "'__private_attrs__' is required in PrivateAttrType")
    ∧ TypeNew.pnew [] { name := "X", attrs := [], privDecl := some [TypeNew.PVal.str "a"], slots := ["a"], module := 0 }
      = .error (.typeErr "'__private_attrs__' cannot contain the attribute name in '__slots__'")
    ∧ TypeNew.pnew [("X", 0)] { name := "X", attrs := [], privDecl := some [TypeNew.PVal.str "a"], slots := [], module := 0 }
      = .error (.typeErr "Cannot create 'X' class in the same module twice") :=
  ⟨rfl, rfl, rfl, rfl, rfl⟩

/-- C9.  Whenever the class body supplies no serialization hooks of its
own, the metaclass installs `__getstate__`/`__setstate__` hooks that
raise `TypeError` on every invocation — for instances and for the
metaclass's own class-level pair alike — so generic serialization of
private state fails deterministically. -/
theorem c9_serialization_hooks_always_raise (tname : String) (s : Nat) :
    Pickle.runGetstate (Pickle.chooseHook none tname)
      = .error (.typeErr ("Cannot pickle '" ++ (tname ++ "' objects")))
    ∧ Pickle.runSetstate (Pickle.chooseHook none tname) s
      = .error (.typeErr ("Cannot unpickle '" ++ (tname ++ "' objects")))
    ∧ Pickle.metaGetstate = .error (.typeErr "Cannot pickle PrivateAttrType classes")
    ∧ Pickle.metaSetstate s = .error (.typeErr "Cannot unpickle PrivateAttrType classes") :=
  ⟨rfl, rfl, rfl, rfl⟩
